import Mathlib

/-!
Verification development for the rag-api repository.

The definitions below are a shallow embedding of the Python source:

* `app/services/ai_service.py`     — `AIService.retrieve_answer`, `AIService.generate_chat_title`
* `app/services/chat_service.py`   — `ChatService.send_message`, `ChatService._get_chat_history`
* `app/services/document_service.py` — `DocumentService.search`,
  `DocumentService.save_document_vectors`, `DocumentService.delete_document_vectors`,
  `DocumentService._convert_to_documents`
* `app/repositories/repositories.py` — `MessageRepository.get_by_chat`,
  `DocumentRepository.finish_embedding`
* `app/routes/documents.py`        — `upload_document` (extension validation), `delete_document`
* `app/models/models.py`           — enums and records

Python dicts that preserve insertion order are modelled as association lists;
database sessions are modelled by explicit committed states (a commit is one
atomic state transition applying all pending writes of the turn); external
calls (language model, vector store, blob storage) are parameters of type
`Except err result` so that raised exceptions are explicit.
-/

namespace RagApi

/-- Sender enum from `app/models/models.py` (`SenderType`). -/
inductive Sender
  | human
  | ai
deriving DecidableEq, Repr

/-- `SenderType.value` : the string stored in the role field. -/
def Sender.value : Sender → String
  | .human => "human"
  | .ai => "ai"

/-- One entry of the `chat_history` list of dicts `{"role": .., "content": ..}`
built by `ChatService._get_chat_history`. -/
structure HistMsg where
  role : String
  content : String
deriving DecidableEq, Repr

/-- A langchain message as assembled in `AIService.retrieve_answer`
(`SystemMessage` / `HumanMessage` / `AIMessage`). -/
inductive Msg
  | system (content : String)
  | human (content : String)
  | ai (content : String)
deriving DecidableEq, Repr

/-- A retrieved langchain `Document`: `page_content` plus the metadata keys read
by `AIService.retrieve_answer` (`doc.metadata.get("document_name", "Unknown")`,
`doc.metadata.get("document_id", "")`); an absent key is `none`. -/
structure RetrievedDoc where
  page_content : String
  document_name : Option String
  document_id : Option String
deriving DecidableEq, Repr

/-- `doc_name = doc.metadata.get("document_name", "Unknown")`. -/
def docName (d : RetrievedDoc) : String := d.document_name.getD "Unknown"

/-- `document_id = doc.metadata.get("document_id", "")`. -/
def docId (d : RetrievedDoc) : String := d.document_id.getD ""

/-- `doc_key = document_id or doc_name` (Python falsy-or on strings):
the empty id falls back to the name. -/
def docKey (d : RetrievedDoc) : String :=
  if docId d = "" then docName d else docId d

/-- One value of the `source_refs` dict:
`{"document_id": str(document_id), "document_title": str(doc_name)}`. -/
structure SourceRef where
  document_id : String
  document_title : String
deriving DecidableEq, Repr

/-- The loop state of the citation-building loop in `AIService.retrieve_answer`
(lines 59-78): `context_parts`, `source_refs`, `document_to_ref`, `ref_counter`.
The two Python dicts preserve insertion order and are modelled as association
lists. -/
structure CitState where
  context_parts : List String
  source_refs : List (String × SourceRef)
  document_to_ref : List (String × Nat)
  ref_counter : Nat
deriving DecidableEq, Repr

/-- One rendered context entry:
`f"[{ref_num}] {doc_name}\n{doc.page_content}"`. -/
def renderEntry (n : Nat) (d : RetrievedDoc) : String :=
  "[" ++ toString n ++ "] " ++ docName d ++ "\n" ++ d.page_content

/-- One iteration of the `for i, doc in enumerate(docs, 1)` loop of
`AIService.retrieve_answer`: assign a fresh citation number on first sight of a
document key, then append the rendered context entry with that number. -/
def processDoc (st : CitState) (d : RetrievedDoc) : CitState :=
  match st.document_to_ref.lookup (docKey d) with
  | some n =>
      { st with context_parts := st.context_parts ++ [renderEntry n d] }
  | none =>
      { context_parts := st.context_parts ++ [renderEntry st.ref_counter d]
        source_refs :=
          st.source_refs ++ [(toString st.ref_counter, ⟨docId d, docName d⟩)]
        document_to_ref := st.document_to_ref ++ [(docKey d, st.ref_counter)]
        ref_counter := st.ref_counter + 1 }

/-- Initial loop state (`context_parts = []`, empty dicts, `ref_counter = 1`). -/
def initCitState : CitState := ⟨[], [], [], 1⟩

/-- The whole citation loop of `AIService.retrieve_answer`. -/
def buildCitations (docs : List RetrievedDoc) : CitState :=
  docs.foldl processDoc initCitState

/-- `SYSTEM_PROMPT` from `ai_service.py` up to the `{context}` placeholder. -/
def systemPromptHead : String :=
  "Si koristen AI pomočnik, ki odgovarja izključno na podlagi priloženih kontekstnih dokumentov.\n\nPravila:\n- Vedno odgovarjaj samo v slovenščini.\n- Uporabi izključno informacije iz priloženega konteksta. Ne uporabljaj splošnega znanja ali ugibanja.\n- Če v kontekstu ni dovolj informacij, jasno povej: \"V priloženem kontekstu ni dovolj informacij za odgovor.\"\n- Ne izmišljaj si dejstev, številk, imen, datumov ali citatov.\n- Vsako pomembno trditev podpri s citatom v obliki [1][2], ki se ujema z oznakami dokumentov v kontekstu.\n- Citiraj samo številke/oznake, ki se pojavijo v kontekstu.\n- Če dokumenti vsebujejo nasprotujoče si informacije, to izrecno omeni in navedi ustrezne citate.\n\nKontekst iz dokumentov:\n"

/-- `SYSTEM_PROMPT.format(context=context)`. -/
def systemPrompt (context : String) : String := systemPromptHead ++ context

/-- The fixed answer returned on empty retrieval (`retrieve_answer` line 55). -/
def insufficientAnswer : String :=
  "I couldn\x27t find any relevant information in the documents to answer your question."

/-- History-to-message conversion inside `retrieve_answer`:
`HumanMessage` for role `"human"`, `AIMessage` otherwise. -/
def histToMsg (m : HistMsg) : Msg :=
  if m.role == "human" then .human m.content else .ai m.content

/-- Python slice `l[-n:]`: the last `n` elements (all of them when shorter). -/
def takeLast (n : Nat) (l : List α) : List α := l.drop (l.length - n)

/-- Successful result of `AIService.retrieve_answer`: the answer text, the
`source_refs` citation map, and the message list actually sent to the language
model (`none` when the model was never invoked). -/
structure AnswerOk where
  answer : String
  source_refs : List (String × SourceRef)
  sent : Option (List Msg)
deriving DecidableEq, Repr

/-- `AIService.retrieve_answer` (`ai_service.py` lines 47-104).  The language
model is the parameter `llm`; a raised exception is an `Except.error`, which
propagates.  With no docs the fixed answer and empty citation map are returned
and `llm` is not applied (`sent = none`).  With a truthy (non-`None`,
non-empty) `chat_history`, messages are the system prompt carrying the context,
the last 10 history entries in order, then the question; otherwise
`RAG_PROMPT.invoke(..).to_messages()` yields the two-slot template. -/
def retrieve_answer (llm : List Msg → Except ε String) (question : String)
    (docs : List RetrievedDoc) (chat_history : Option (List HistMsg)) :
    Except ε AnswerOk :=
  if docs.isEmpty then
    .ok ⟨insufficientAnswer, [], none⟩
  else
    let st := buildCitations docs
    let context := String.intercalate "\n\n---\n\n" st.context_parts
    let messages : List Msg :=
      match chat_history with
      | some h =>
          if h.isEmpty then
            [.system (systemPrompt context), .human question]
          else
            .system (systemPrompt context) ::
              ((takeLast 10 h).map histToMsg ++ [.human question])
      | none => [.system (systemPrompt context), .human question]
    match llm messages with
    | .error e => .error e
    | .ok answer => .ok ⟨answer, st.source_refs, some messages⟩

/-- A total language model: never raises. -/
def okLLM (f : List Msg → String) : List Msg → Except ε String :=
  fun ms => .ok (f ms)

/-- Quote characters stripped by `.strip('"\'')`. -/
def isQuoteChar (c : Char) : Bool := c == '"' || c == '\x27'

/-- Python `s.strip().strip('"\'')`. -/
def stripQuotes (s : String) : String :=
  (((s.trim.toList.dropWhile isQuoteChar).reverse.dropWhile isQuoteChar).reverse).asString

/-- The title prompt of `AIService.generate_chat_title` around
`first_message[:200]`. -/
def titlePrompt (first_message : String) : String :=
  "Generate a short, descriptive title (max 5 words) for a chat that starts with this message:\n\n\"" ++
    first_message.take 200 ++
    "\"\n\nRespond with only the title, no quotes or additional text."

/-- `AIService.generate_chat_title` (`ai_service.py` lines 106-121); an `llm`
exception propagates to the caller. -/
def generate_chat_title (llm : String → Except ε String) (first_message : String) :
    Except ε String :=
  match llm (titlePrompt first_message) with
  | .error e => .error e
  | .ok raw =>
      let title := stripQuotes raw
      let title := if title.length > 50 then title.take 47 ++ "..." else title
      .ok (if title == "" then "New Chat" else title)

end RagApi

namespace RagApi

/-- A persisted message row (`Message` model): content and sender; rows are
kept in creation order, which is the `created_at` ascending order used by
`MessageRepository.get_by_chat` (creation timestamps increase monotonically). -/
structure MessageRec where
  content : String
  sender : Sender
deriving DecidableEq, Repr

/-- The committed database state relevant to one chat: the chat row
(`name`, `updated_at`) and its message rows in creation order. -/
structure ChatDB where
  chat_name : String
  chat_updated_at : Nat
  messages : List MessageRec
deriving DecidableEq, Repr

/-- `MessageRepository.get_by_chat(session, chat_id, skip=0, limit=100)`:
order by `created_at` ascending (creation order here), offset `skip`,
limit `limit`. -/
def get_by_chat (db : ChatDB) (skip : Nat := 0) (limit : Nat := 100) :
    List MessageRec :=
  ((db.messages).drop skip).take limit

/-- `ChatService._get_chat_history`: the rows of `get_by_chat` (with its
default `skip`/`limit`) as `{"role": sender value, "content": content}`. -/
def get_chat_history (db : ChatDB) : List HistMsg :=
  (get_by_chat db).map (fun m => ⟨m.sender.value, m.content⟩)

/-- The observable outcome of one `ChatService.send_message` turn: the
committed database states in order (one entry per `session.commit()` that
ran), the number of `generate_chat_title` language-model invocations, the
returned triple or the propagated exception, and the messages sent to the
answer language model. -/
structure TurnResult where
  committed : List ChatDB
  titleCalls : Nat
  outcome : Except String (MessageRec × MessageRec × List (String × SourceRef))
  sent : Option (List Msg)
deriving Repr

/-- `ChatService.send_message` (`chat_service.py` lines 63-134), with the
retrieval result `docs` passed in (retrieval is `DocumentService.search`,
embedded separately).  Step 1 commits the human message; history is then
loaded; `retrieve_answer` may raise, aborting the turn before any further
commit; otherwise the AI message, the chat timestamp and a possible new title
are committed together by the single step-8 commit. -/
def send_message (llm : List Msg → Except String String)
    (titleLLM : String → Except Unit String) (docs : List RetrievedDoc)
    (db : ChatDB) (content : String) (now : Nat) (auto_title : Bool := true) :
    TurnResult :=
  let human : MessageRec := ⟨content, .human⟩
  let db1 : ChatDB := { db with messages := db.messages ++ [human] }
  let history := get_chat_history db1
  match retrieve_answer llm content docs (some history) with
  | .error e => { committed := [db1], titleCalls := 0, outcome := .error e, sent := none }
  | .ok r =>
      let ai : MessageRec := ⟨r.answer, .ai⟩
      let doTitle := auto_title && history.length == 0 && db.chat_name == "New Chat"
      let titleCalls := if doTitle then 1 else 0
      let name2 :=
        if doTitle then
          match generate_chat_title titleLLM content with
          | .ok t => t
          | .error _ => db.chat_name
        else db.chat_name
      let db2 : ChatDB :=
        { chat_name := name2, chat_updated_at := now, messages := db1.messages ++ [ai] }
      { committed := [db1, db2], titleCalls := titleCalls,
        outcome := .ok (human, ai, r.source_refs), sent := r.sent }

end RagApi

namespace RagApi

/-- A chunk as stored in the vector index: `page_content` plus the metadata
attached by `DocumentService._add_metadata`. -/
structure ChunkMeta where
  page_content : String
  document_id : String
  document_name : String
  project_id : String
deriving DecidableEq, Repr

/-- The filter dictionary built by `DocumentService.search`
(`document_service.py` lines 59-68): either the plain
`{"project_id": str(project_id)}` or the
`{"$and": [{"project_id": ..}, {"document_id": {"$in": [..]}}]}` conjunction. -/
inductive FilterExpr
  | projectOnly (project_id : String)
  | projectAndDocs (project_id : String) (document_ids : List String)
deriving DecidableEq, Repr

/-- `filter_dict` construction: start from the project-only filter and replace
it with the conjunction when `document_ids` is truthy (non-`None` and
non-empty). -/
def build_filter (project_id : String) (document_ids : Option (List String)) :
    FilterExpr :=
  match document_ids with
  | some ids => if ids.isEmpty then .projectOnly project_id else .projectAndDocs project_id ids
  | none => .projectOnly project_id

/-- Standard semantics of the metadata filter language (equality and `$in`
set-membership joined by `$and`), as required of the vector store by the
filter contract. -/
def matchesFilter (f : FilterExpr) (c : ChunkMeta) : Bool :=
  match f with
  | .projectOnly pid => c.project_id == pid
  | .projectAndDocs pid ids => c.project_id == pid && ids.contains c.document_id

/-- Modelled from the spec: the external vector store's `similarity_search`
(langchain, not part of this repository) returns up to `k` chunks of the store
matching the filter, ranked by similarity; `store` is taken in ranked order
for the query. -/
def similarity_search (store : List ChunkMeta) (k : Nat) (f : FilterExpr) :
    List ChunkMeta :=
  (store.filter (matchesFilter f)).take k

/-- `DocumentService.search` (`document_service.py` lines 50-85): build the
filter and delegate to the vector store. -/
def search (store : List ChunkMeta) (query : String) (project_id : String)
    (document_ids : Option (List String)) (k : Nat := 5) : List ChunkMeta :=
  similarity_search store k (build_filter project_id document_ids)

/-- The scope argument that `ChatService.send_message` passes to
`DocumentService.search`: `document_ids if document_ids else None`. -/
def chat_scope (document_ids : List String) : Option (List String) :=
  if document_ids.isEmpty then none else some document_ids

/-- `DocumentStatus` enum from `app/models/models.py`. -/
inductive DocumentStatus
  | pending
  | inProgress
  | successful
  | failed
deriving DecidableEq, Repr

/-- The document row fields touched by ingestion. -/
structure DocumentRec where
  status : DocumentStatus
  chunk_count : Nat
deriving DecidableEq, Repr

/-- `DocumentRepository.finish_embedding` (`repositories.py` lines 94-100):
set the chunk count and mark the document `Successful`, then commit. -/
def finish_embedding (d : DocumentRec) (chunk_count : Nat) : DocumentRec :=
  { d with chunk_count := chunk_count, status := .successful }

/-- Outcome of one background-ingestion run: the document row after the run,
the splits that were written to the vector index (`none` when the index write
never completed), and the exception that escaped the task, if any. -/
structure IngestResult where
  document : DocumentRec
  indexedSplits : Option (List String)
  error : Option String
deriving DecidableEq, Repr

/-- `DocumentService.save_document_vectors` (`document_service.py` lines
26-48) for an existing document `d`: extraction (`_convert_to_documents`),
splitting, and the vector-index write are the three fallible external steps;
the function body has no exception handler, so a failure at any step escapes
the background task and nothing further runs; only after a completed index
write does `finish_embedding` update status and chunk count. -/
def save_document_vectors (d : DocumentRec)
    (convert : Except String (List String))
    (split : List String → Except String (List String))
    (index : List String → Except String Unit) : IngestResult :=
  match convert with
  | .error e => ⟨d, none, some e⟩
  | .ok docsL =>
      match split docsL with
      | .error e => ⟨d, none, some e⟩
      | .ok splits =>
          match index splits with
          | .error e => ⟨d, none, some e⟩
          | .ok _ => ⟨finish_embedding d splits.length, some splits, none⟩

/-- The two external decodings of one uploaded byte buffer: the per-page texts
that `fitz` extracts when read as a PDF, and the whole-file text that
`TextLoader` produces. -/
structure FileContent where
  pdfPages : List String
  asText : String
deriving DecidableEq, Repr

/-- `settings.allowed_extensions` from `app/core/config.py`. -/
def allowed_extensions : List String := ["pdf", "txt", "md"]

/-- `DocumentService._convert_to_documents` (`document_service.py` lines
99-138): for `"pdf"`, one unit per page whose stripped text is non-empty; for
`"txt"`/`"md"` the `TextLoader` result; for every other declared type the
code comment says `Default to text loader` and the same `TextLoader` result is
returned — the function is total and has no failure path. -/
def convert_to_documents (file_type : String) (content : FileContent) :
    List String :=
  if file_type == "pdf" then
    content.pdfPages.filter (fun t => !(t.trim == ""))
  else if file_type == "txt" || file_type == "md" then
    [content.asText]
  else
    [content.asText]

/-- Extension extraction in `upload_document` (`routes/documents.py` line 78):
`file.filename.rsplit(".", 1)[-1].lower() if "." in file.filename else ""`. -/
def file_ext (filename : String) : String :=
  if filename.toList.contains '.' then
    ((filename.toList.reverse.takeWhile (fun c => !(c == '.'))).reverse.map
      Char.toLower).asString
  else ""

/-- The request-validation part of `upload_document` (`routes/documents.py`
lines 72-83): missing filename and disallowed extension each raise an HTTP 400
request error before any extraction runs. -/
def upload_validate (filename : String) : Except String String :=
  if filename == "" then
    .error "Filename is required"
  else
    let ext := file_ext filename
    if !(allowed_extensions.contains ext) then
      .error ("File type \x27" ++ ext ++ "\x27 not allowed. Allowed types: pdf, txt, md")
    else
      .ok ext

/-- What the `delete_document` route removed. -/
structure DeleteWorld where
  vectorsDeleted : Bool
  blobDeleted : Bool
  metadataDeleted : Bool
deriving DecidableEq, Repr

/-- `DocumentService.delete_document_vectors` (`document_service.py` lines
87-97): the vector-store delete runs inside `try: .. except Exception: pass`,
so it never raises; the result records whether the vectors were actually
deleted. -/
def delete_document_vectors (adelete : Except String Unit) : Bool :=
  match adelete with
  | .ok _ => true
  | .error _ => false

/-- The `delete_document` route (`routes/documents.py` lines 174-208) after
the existence checks: delete vectors (failure swallowed by
`delete_document_vectors`), delete the blob, then delete the database row;
an exception from the latter two propagates as the surfaced error. -/
def delete_document (adelete : Except String Unit) (blobDelete : Except String Unit)
    (metaDelete : Except String Unit) : DeleteWorld × Option String :=
  let v := delete_document_vectors adelete
  match blobDelete with
  | .error e => (⟨v, false, false⟩, some e)
  | .ok _ =>
      match metaDelete with
      | .error e => (⟨v, true, false⟩, some e)
      | .ok _ => (⟨v, true, true⟩, none)

/-- The context string assembled by the citation loop. -/
def contextOf (docs : List RetrievedDoc) : String :=
  String.intercalate "\n\n---\n\n" (buildCitations docs).context_parts

/-- The message list built by `retrieve_answer` for a truthy history: system
instruction carrying the context, the last-10 window of the history in order,
then the new question. -/
def promptMessages (question : String) (docs : List RetrievedDoc)
    (h : List HistMsg) : List Msg :=
  .system (systemPrompt (contextOf docs)) ::
    ((takeLast 10 h).map histToMsg ++ [.human question])

/-- The two-slot template produced by `RAG_PROMPT` when no history is given. -/
def twoSlotMessages (question : String) (docs : List RetrievedDoc) : List Msg :=
  [.system (systemPrompt (contextOf docs)), .human question]

/-- Keep the first element carrying each distinct key, scanning left to right
past an initial set of already-seen keys. -/
def firstOccurAux {α : Type} (key : α → String) (seen : List String) :
    List α → List α
  | [] => []
  | a :: l =>
      if key a ∈ seen then firstOccurAux key seen l
      else a :: firstOccurAux key (key a :: seen) l

/-- The elements of `l` at the first appearance of each distinct key, in
order of first appearance. -/
def firstOccurBy {α : Type} (key : α → String) (l : List α) : List α :=
  firstOccurAux key [] l

/-- Each first-appearance chunk paired with its 1-based citation number. -/
def citationPairs (docs : List RetrievedDoc) : List (RetrievedDoc × Nat) :=
  (firstOccurBy docKey docs).zip
    (List.range' 1 (firstOccurBy docKey docs).length)

/-- The expected `document_to_ref` map: each distinct key, in order of first
appearance, paired with the next integer starting at 1. -/
def citationMapSpec (docs : List RetrievedDoc) : List (String × Nat) :=
  (citationPairs docs).map (fun p => (docKey p.1, p.2))

/-- The expected `source_refs` citation map: the citation number rendered as a
string, mapped to the id and title of the document first seen under it. -/
def citationRefsSpec (docs : List RetrievedDoc) : List (String × SourceRef) :=
  (citationPairs docs).map (fun p => (toString p.2, ⟨docId p.1, docName p.1⟩))

/-- The citation number assigned to the document of chunk `d`. -/
def citeNum (docs : List RetrievedDoc) (d : RetrievedDoc) : Nat :=
  ((citationMapSpec docs).lookup (docKey d)).getD 0

/-- The expected context entries: every chunk rendered with the citation
number assigned to its document. -/
def contextPartsSpec (docs : List RetrievedDoc) : List String :=
  docs.map (fun d => renderEntry (citeNum docs d) d)

/-- The expected citation-loop state after processing a prefix `pre`. -/
def specState (pre : List RetrievedDoc) : CitState :=
  ⟨contextPartsSpec pre, citationRefsSpec pre, citationMapSpec pre,
   (firstOccurBy docKey pre).length + 1⟩

/-- Concrete store used in the claim witnesses. -/
def sampleStore : List ChunkMeta :=
  [⟨"chunk one", "d1", "Doc One", "p1"⟩, ⟨"chunk two", "d2", "Doc Two", "p1"⟩]

/-- The document row as `upload_document` creates it: `In progress`,
`chunk_count = 0`. -/
def uploadedDoc : DocumentRec := ⟨.inProgress, 0⟩

/-- Concrete history used in the C5 witness. -/
def sampleHistory : List HistMsg :=
  [⟨"human", "first question"⟩, ⟨"ai", "first answer"⟩]

/-- Concrete retrieved chunk used in several witnesses. -/
def oneDoc : RetrievedDoc := ⟨"chunk text", some "Doc A", some "idA"⟩

/-- The hundred prior messages of the C10 counterexample chat. -/
def priorMessages : List MessageRec :=
  List.replicate 100 ⟨"earlier message", Sender.human⟩

/-- The ranked chunk list of the C1 witness: documents A, B, A, C in that
order. -/
def citeDocs : List RetrievedDoc :=
  [⟨"chunk a1", some "Doc A", some "idA"⟩,
   ⟨"chunk b", some "Doc B", some "idB"⟩,
   ⟨"chunk a2", some "Doc A", some "idA"⟩,
   ⟨"chunk c", some "Doc C", some "idC"⟩]

/-- Claim C2: with an empty retrieved chunk list, `retrieve_answer` returns the
fixed insufficient-information answer with an empty citation map and never
invokes the language model (this holds for every `llm`, including one that
would raise, and `sent = none` records that no call was made). -/
theorem empty_retrieval_fixed_answer (llm : List Msg → Except String String)
    (question : String) (chat_history : Option (List HistMsg)) :
    retrieve_answer llm question [] chat_history = .ok ⟨insufficientAnswer, [], none⟩ := by
  rfl

/-- Every chunk returned by `search` satisfies the filter that was built. -/
theorem matchesFilter_of_mem_search (store : List ChunkMeta) (query project_id : String)
    (document_ids : Option (List String)) (k : Nat) (c : ChunkMeta)
    (hc : c ∈ search store query project_id document_ids k) :
    matchesFilter (build_filter project_id document_ids) c = true := by
  simp only [search, similarity_search] at hc
  exact (List.mem_filter.1 (List.mem_of_mem_take hc)).2

/-- Claim C3: retrieval scope is always a subset of project scope — every
returned chunk's `project_id` equals the query's; a non-empty `document_ids`
additionally restricts `document_id` to that set (conjunction with project
scope); absent or empty `document_ids` yields exactly the whole-project
filter, and `ChatService.send_message` maps an empty chat association to the
absent scope. -/
theorem search_scope_invariant (store : List ChunkMeta) (query project_id : String)
    (document_ids : Option (List String)) (k : Nat) :
    (∀ c ∈ search store query project_id document_ids k, c.project_id = project_id)
    ∧ (∀ ids, document_ids = some ids → ids ≠ [] →
        ∀ c ∈ search store query project_id document_ids k, c.document_id ∈ ids)
    ∧ search store query project_id none k =
        (store.filter (fun c => c.project_id == project_id)).take k
    ∧ search store query project_id (some []) k =
        (store.filter (fun c => c.project_id == project_id)).take k
    ∧ chat_scope [] = none
    ∧ (∀ ids : List String, ids ≠ [] → chat_scope ids = some ids) := by
  refine ⟨?_, ?_, rfl, rfl, rfl, ?_⟩
  · intro c hc
    have hm := matchesFilter_of_mem_search store query project_id document_ids k c hc
    match document_ids with
    | none =>
        simpa [build_filter, matchesFilter] using hm
    | some ids =>
        by_cases hids : ids.isEmpty <;>
          simp [build_filter, hids, matchesFilter] at hm
        · exact hm
        · exact hm.1
  · intro ids hids hne c hc
    have hm := matchesFilter_of_mem_search store query project_id document_ids k c hc
    subst hids
    have : ids.isEmpty = false := by
      cases ids with
      | nil => exact absurd rfl hne
      | cons a l => rfl
    simp [build_filter, this, matchesFilter] at hm
    exact hm.2
  · intro ids hne
    cases ids with
    | nil => exact absurd rfl hne
    | cons a l => rfl

/-- Witness for `search_scope_invariant` at a concrete store and query. -/
theorem search_scope_invariant_witness :
    (⟨"chunk one", "d1", "Doc One", "p1"⟩ : ChunkMeta).project_id = "p1" ∧
      (⟨"chunk one", "d1", "Doc One", "p1"⟩ : ChunkMeta).document_id ∈ ["d1"] :=
  ⟨(search_scope_invariant sampleStore "q" "p1" (some ["d1"]) 5).1 _ (by decide),
   (search_scope_invariant sampleStore "q" "p1" (some ["d1"]) 5).2.1 ["d1"] rfl
     (by decide) _ (by decide)⟩

/-- Claim C6 (evaluation at the failing input): when the vector-index write
raises, `save_document_vectors` leaves the document exactly as it was — status
`In progress`, not `Failed`, chunk count `0` — because no exception handler in
the repository ever assigns `DocumentStatus.FAILED`; only the successful path
through `finish_embedding` touches status and chunk count. -/
theorem ingestion_failure_leaves_in_progress :
    save_document_vectors uploadedDoc (.ok ["page text"]) (fun l => .ok l)
        (fun _ => .error "index write failed")
      = ⟨uploadedDoc, none, some "index write failed"⟩
    ∧ uploadedDoc.status = .inProgress
    ∧ uploadedDoc.status ≠ .failed
    ∧ uploadedDoc.chunk_count = 0 := by
  exact ⟨rfl, rfl, by decide, rfl⟩

/-- Claim C7 (counterexample): extraction does not fail on a declared type
outside pdf/txt/md — `convert_to_documents` is total and, for the unsupported
type `"docx"`, falls through to the text loader and produces a text unit. -/
theorem unsupported_type_still_extracts :
    convert_to_documents "docx" ⟨[], "hello world"⟩ = ["hello world"]
    ∧ allowed_extensions.contains "docx" = false := by
  exact ⟨rfl, by decide⟩

/-- Claim C7 (amended): the upload route rejects any filename whose extension
is not pdf/txt/md with a request error before extraction runs, while the
extractor itself falls back to the plain-text loader for such types instead of
failing. -/
theorem upload_rejects_disallowed_extension (filename : String) (ft : String)
    (c : FileContent) (hf : file_ext filename ∉ allowed_extensions)
    (hft : ft ∉ allowed_extensions) :
    (∃ msg, upload_validate filename = .error msg)
    ∧ convert_to_documents ft c = [c.asText] := by
  constructor
  · by_cases h0 : filename = ""
    · exact ⟨"Filename is required", by simp [upload_validate, h0]⟩
    · refine ⟨"File type \x27" ++ file_ext filename ++ "\x27 not allowed. Allowed types: pdf, txt, md", ?_⟩
      have hc : allowed_extensions.contains (file_ext filename) = false := by
        by_contra hcon
        exact hf (List.mem_of_elem_eq_true (Bool.of_not_eq_false hcon))
      simp [upload_validate, h0, hc, hf]
  · have h1 : (ft == "pdf") = false := by
      cases h : ft == "pdf"
      · rfl
      · exact absurd (by rw [eq_of_beq h]; decide) hft
    by_cases h2 : (ft == "txt" || ft == "md") = true <;>
      simp [convert_to_documents, h1, h2]

/-- Witness for `upload_rejects_disallowed_extension` at a concrete docx
upload. -/
theorem upload_rejects_disallowed_extension_witness :
    (∃ msg, upload_validate "report.docx" = .error msg)
    ∧ convert_to_documents "docx" ⟨["p"], "body"⟩ = ["body"] :=
  upload_rejects_disallowed_extension "report.docx" "docx" ⟨["p"], "body"⟩
    (by decide) (by decide)

/-- Claim C8 (counterexample): when the vector-store delete raises and the
blob and metadata deletes succeed, the route reports success (`none`) even
though the vectors were not removed — the partial failure is swallowed, not
surfaced. -/
theorem vector_delete_failure_swallowed :
    delete_document (.error "network down") (.ok ()) (.ok ())
      = (⟨false, true, true⟩, none) := by
  rfl

/-- Claim C8 (amended): a metadata (or blob) removal failure is surfaced to
the caller as an error, but a vector-removal failure of any kind is swallowed
by `delete_document_vectors` — the surfaced outcome never depends on the
vector-delete result, and deletion proceeds past it. -/
theorem delete_document_error_surfacing
    (adelete blobDelete metaDelete : Except String Unit) :
    (∀ e, blobDelete = .ok () → metaDelete = .error e →
        delete_document adelete blobDelete metaDelete
          = (⟨delete_document_vectors adelete, true, false⟩, some e))
    ∧ (blobDelete = .ok () → metaDelete = .ok () →
        delete_document adelete blobDelete metaDelete
          = (⟨delete_document_vectors adelete, true, true⟩, none))
    ∧ (delete_document adelete blobDelete metaDelete).2
        = (delete_document (.ok ()) blobDelete metaDelete).2 := by
  refine ⟨?_, ?_, ?_⟩
  · intro e hb hm
    subst hb; subst hm
    rfl
  · intro hb hm
    subst hb; subst hm
    rfl
  · cases blobDelete with
    | error e => rfl
    | ok u =>
        cases metaDelete with
        | error e => rfl
        | ok u2 => rfl

/-- Witness for `delete_document_error_surfacing`: a failing metadata delete
is surfaced even while the failing vector delete is swallowed. -/
theorem delete_document_error_surfacing_witness :
    delete_document (.error "network down") (.ok ()) (.error "db down")
      = (⟨false, true, false⟩, some "db down") :=
  (delete_document_error_surfacing (.error "network down") (.ok ())
    (.error "db down")).1 "db down" rfl rfl

theorem isEmpty_false_of_ne_nil {l : List α} (h : l ≠ []) : l.isEmpty = false := by
  cases l with
  | nil => exact absurd rfl h
  | cons a t => rfl

/-- `retrieve_answer` with a total model and a non-empty history. -/
theorem retrieve_answer_okLLM_history (f : List Msg → String) (q : String)
    (docs : List RetrievedDoc) (h : List HistMsg) (hd : docs ≠ []) (hh : h ≠ []) :
    retrieve_answer (okLLM (ε := String) f) q docs (some h)
      = .ok ⟨f (promptMessages q docs h), (buildCitations docs).source_refs,
             some (promptMessages q docs h)⟩ := by
  unfold retrieve_answer
  rw [isEmpty_false_of_ne_nil hd]
  simp only [Bool.false_eq_true, if_false, isEmpty_false_of_ne_nil hh]
  rfl

/-- `retrieve_answer` with a total model and an absent history. -/
theorem retrieve_answer_okLLM_none (f : List Msg → String) (q : String)
    (docs : List RetrievedDoc) (hd : docs ≠ []) :
    retrieve_answer (okLLM (ε := String) f) q docs none
      = .ok ⟨f (twoSlotMessages q docs), (buildCitations docs).source_refs,
             some (twoSlotMessages q docs)⟩ := by
  unfold retrieve_answer
  rw [isEmpty_false_of_ne_nil hd]
  rfl

/-- `retrieve_answer` with a total model and a present-but-empty history
(also falsy in Python). -/
theorem retrieve_answer_okLLM_emptyHistory (f : List Msg → String) (q : String)
    (docs : List RetrievedDoc) (hd : docs ≠ []) :
    retrieve_answer (okLLM (ε := String) f) q docs (some [])
      = .ok ⟨f (twoSlotMessages q docs), (buildCitations docs).source_refs,
             some (twoSlotMessages q docs)⟩ := by
  unfold retrieve_answer
  rw [isEmpty_false_of_ne_nil hd]
  rfl

/-- A raising model propagates out of `retrieve_answer` whenever a call
happens (non-empty docs). -/
theorem retrieve_answer_error (e : String) (q : String) (docs : List RetrievedDoc)
    (ch : Option (List HistMsg)) (hd : docs ≠ []) :
    retrieve_answer (fun _ => .error e) q docs ch = .error e := by
  unfold retrieve_answer
  rw [isEmpty_false_of_ne_nil hd]
  cases ch with
  | none => rfl
  | some h => cases h with
    | nil => rfl
    | cons a t => rfl

/-- A total model never yields an error from `retrieve_answer`. -/
theorem retrieve_answer_okLLM_isOk (f : List Msg → String) (q : String)
    (docs : List RetrievedDoc) (ch : Option (List HistMsg)) :
    ∃ r, retrieve_answer (okLLM (ε := String) f) q docs ch = .ok r := by
  unfold retrieve_answer
  by_cases hb : docs.isEmpty
  · rw [if_pos hb]; exact ⟨_, rfl⟩
  · rw [if_neg hb]
    cases ch with
    | none => exact ⟨_, rfl⟩
    | some h => cases h with
      | nil => exact ⟨_, rfl⟩
      | cons a t => exact ⟨_, rfl⟩

/-- Claim C5: for every synthesis call on non-empty docs, a supplied non-empty
history yields exactly system-with-context, then the last-10 window of the
history in its original (oldest-first) order, then the new question; the
window has at most 10 entries and is a suffix of the history; no history (or
an empty one) yields exactly the two-slot template. -/
theorem prompt_message_shape (f : List Msg → String) (q : String)
    (docs : List RetrievedDoc) (h : List HistMsg) (hd : docs ≠ []) (hh : h ≠ []) :
    retrieve_answer (okLLM (ε := String) f) q docs (some h)
      = .ok ⟨f (promptMessages q docs h), (buildCitations docs).source_refs,
             some (promptMessages q docs h)⟩
    ∧ (takeLast 10 h).length ≤ 10
    ∧ takeLast 10 h <:+ h
    ∧ retrieve_answer (okLLM (ε := String) f) q docs none
        = .ok ⟨f (twoSlotMessages q docs), (buildCitations docs).source_refs,
               some (twoSlotMessages q docs)⟩
    ∧ retrieve_answer (okLLM (ε := String) f) q docs (some [])
        = .ok ⟨f (twoSlotMessages q docs), (buildCitations docs).source_refs,
               some (twoSlotMessages q docs)⟩ := by
  refine ⟨retrieve_answer_okLLM_history f q docs h hd hh, ?_, ?_,
    retrieve_answer_okLLM_none f q docs hd,
    retrieve_answer_okLLM_emptyHistory f q docs hd⟩
  · simp only [takeLast, List.length_drop]
    omega
  · exact List.drop_suffix _ _

/-- Witness for `prompt_message_shape` at one doc and a two-entry history. -/
theorem prompt_message_shape_witness :
    retrieve_answer (okLLM (ε := String) (fun _ => "ans")) "next question" [oneDoc]
        (some sampleHistory)
      = .ok ⟨"ans", (buildCitations [oneDoc]).source_refs,
             some (promptMessages "next question" [oneDoc] sampleHistory)⟩
    ∧ takeLast 10 sampleHistory <:+ sampleHistory :=
  ⟨(prompt_message_shape (fun _ => "ans") "next question" [oneDoc] sampleHistory
      (by decide) (by decide)).1,
   (prompt_message_shape (fun _ => "ans") "next question" [oneDoc] sampleHistory
      (by decide) (by decide)).2.2.1⟩

/-- Claim C4 (the auto-title branch is dead code): in every `send_message`
turn — any model, any title model, any chat state, any content — the title
generator is invoked zero times and every committed state keeps the previous
chat name, because the history loaded in step 4 already contains the human
message committed in step 1, so the `len(history) == 0` guard of step 8 never
holds. -/
theorem auto_title_never_triggers (llm : List Msg → Except String String)
    (titleLLM : String → Except Unit String) (docs : List RetrievedDoc)
    (db : ChatDB) (content : String) (now : Nat) (auto_title : Bool) :
    (send_message llm titleLLM docs db content now auto_title).titleCalls = 0
    ∧ ((send_message llm titleLLM docs db content now auto_title).committed.all
        (fun st => st.chat_name == db.chat_name)) = true := by
  have hne : get_chat_history
      ⟨db.chat_name, db.chat_updated_at, db.messages ++ [⟨content, Sender.human⟩]⟩ ≠ [] := by
    simp [get_chat_history, get_by_chat]
  unfold send_message
  dsimp only
  cases hra : retrieve_answer llm content docs
      (some (get_chat_history
        ⟨db.chat_name, db.chat_updated_at, db.messages ++ [⟨content, Sender.human⟩]⟩)) with
  | error e =>
      exact ⟨rfl, by simp⟩
  | ok r =>
      simp [hne]

/-- Claim C9: when the language-model call raises, `send_message` propagates
the error, the trace of committed states is exactly the step-1 state (the
human message is persisted, no AI message exists, name and timestamp are
untouched); on success the trace is exactly the step-1 state followed by one
final state that adds the AI message and sets the chat timestamp in the same
single commit. -/
theorem llm_error_preserves_human_message (titleLLM : String → Except Unit String)
    (docs : List RetrievedDoc) (db : ChatDB) (content : String) (now : Nat)
    (auto_title : Bool) (e : String) (f : List Msg → String)
    (hdocs : docs ≠ []) :
    send_message (fun _ => .error e) titleLLM docs db content now auto_title
      = ⟨[{ db with messages := db.messages ++ [⟨content, Sender.human⟩] }],
         0, .error e, none⟩
    ∧ (∃ ans name2 tc refs sent,
        send_message (okLLM f) titleLLM docs db content now auto_title
          = ⟨[{ db with messages := db.messages ++ [⟨content, Sender.human⟩] },
              ⟨name2, now, db.messages ++ [⟨content, Sender.human⟩] ++ [⟨ans, Sender.ai⟩]⟩],
             tc, .ok (⟨content, Sender.human⟩, ⟨ans, Sender.ai⟩, refs), sent⟩) := by
  constructor
  · unfold send_message
    dsimp only
    rw [retrieve_answer_error e content docs _ hdocs]
  · obtain ⟨r, hr⟩ := retrieve_answer_okLLM_isOk f content docs
      (some (get_chat_history
        ⟨db.chat_name, db.chat_updated_at, db.messages ++ [⟨content, Sender.human⟩]⟩))
    unfold send_message
    dsimp only
    rw [hr]
    exact ⟨r.answer, _, _, r.source_refs, r.sent, rfl⟩

/-- Witness for `llm_error_preserves_human_message`: a concrete failing turn
keeps the committed human message, creates no AI message, and surfaces the
error. -/
theorem llm_error_preserves_human_message_witness :
    send_message (fun _ => .error "model down") (fun _ => .ok "T") [oneDoc]
        ⟨"My Chat", 0, []⟩ "hi" 5 true
      = ⟨[⟨"My Chat", 0, [⟨"hi", Sender.human⟩]⟩], 0, .error "model down", none⟩ :=
  (llm_error_preserves_human_message (fun _ => .ok "T") [oneDoc] ⟨"My Chat", 0, []⟩
    "hi" 5 true "model down" (fun _ => "ans") (by decide)).1

theorem takeLast_concat (n : Nat) (l : List α) (a : α) :
    takeLast (n + 1) (l ++ [a]) = takeLast n l ++ [a] := by
  unfold takeLast
  rw [List.length_append]
  have h : l.length + [a].length - (n + 1) = l.length - n := by
    show l.length + 1 - (n + 1) = l.length - n
    omega
  rw [h, List.drop_append_of_le_length (Nat.sub_le _ _)]

/-- Claim C10 (amended): history is read after the human-message commit and
capped to the oldest 100 rows; when the chat had fewer than 100 prior
messages the window does contain the new human message as its last entry, the
history passed to the synthesizer is non-empty, and (for non-empty docs with
a total model) the question appears twice at the end of the messages sent to
the language model — once as the last history entry, once as the appended
question. -/
theorem history_window_contains_question (f : List Msg → String)
    (titleLLM : String → Except Unit String) (docs : List RetrievedDoc)
    (db : ChatDB) (content : String) (now : Nat) (auto_title : Bool)
    (hlen : db.messages.length < 100) (hdocs : docs ≠ []) :
    get_chat_history { db with messages := db.messages ++ [⟨content, Sender.human⟩] }
      = db.messages.map (fun m => ⟨m.sender.value, m.content⟩) ++ [⟨"human", content⟩]
    ∧ get_chat_history { db with messages := db.messages ++ [⟨content, Sender.human⟩] } ≠ []
    ∧ (∃ l, (send_message (okLLM f) titleLLM docs db content now auto_title).sent
        = some (l ++ [Msg.human content, Msg.human content])) := by
  have h1 : get_chat_history
      ⟨db.chat_name, db.chat_updated_at, db.messages ++ [⟨content, Sender.human⟩]⟩
      = db.messages.map (fun m => ⟨m.sender.value, m.content⟩) ++ [⟨"human", content⟩] := by
    unfold get_chat_history get_by_chat
    rw [List.drop_zero, List.take_of_length_le (by simp; omega)]
    simp [Sender.value]
  refine ⟨h1, by simp [h1], ?_⟩
  have hh : get_chat_history
      ⟨db.chat_name, db.chat_updated_at, db.messages ++ [⟨content, Sender.human⟩]⟩ ≠ [] := by
    simp [h1]
  unfold send_message
  dsimp only
  rw [retrieve_answer_okLLM_history f content docs _ hdocs hh]
  refine ⟨Msg.system (systemPrompt (contextOf docs)) ::
    (takeLast 9 (db.messages.map (fun m => ⟨m.sender.value, m.content⟩))).map histToMsg, ?_⟩
  show some (promptMessages content docs _) = _
  rw [promptMessages, h1, takeLast_concat]
  simp [histToMsg]

/-- Witness for `history_window_contains_question`: a first message in a
short chat lands in the history window and appears twice in the prompt. -/
theorem history_window_contains_question_witness :
    get_chat_history ⟨"Chat", 0, [⟨"hello", Sender.human⟩]⟩ = [⟨"human", "hello"⟩]
    ∧ ∃ l, (send_message (okLLM (fun _ => "ans")) (fun _ => .ok "T") [oneDoc]
        ⟨"Chat", 0, []⟩ "hello" 2 true).sent
          = some (l ++ [Msg.human "hello", Msg.human "hello"]) :=
  ⟨(history_window_contains_question (fun _ => "ans") (fun _ => .ok "T") [oneDoc]
      ⟨"Chat", 0, []⟩ "hello" 2 true (by decide) (by decide)).1,
   (history_window_contains_question (fun _ => "ans") (fun _ => .ok "T") [oneDoc]
      ⟨"Chat", 0, []⟩ "hello" 2 true (by decide) (by decide)).2.2⟩

/-- Claim C10 (counterexample): in a chat that already has 100 messages, the
history loaded after committing the new human message (oldest-first, capped
at 100 rows) does not contain that message, and the question appears exactly
once — not twice — in the messages sent to the language model. -/
theorem long_chat_history_misses_new_message :
    (⟨"human", "What is X?"⟩ : HistMsg) ∉
        get_chat_history ⟨"Old Name", 0, priorMessages ++ [⟨"What is X?", Sender.human⟩]⟩
    ∧ ((send_message (okLLM (fun _ => "ans")) (fun _ => .ok "T") [oneDoc]
          ⟨"Old Name", 0, priorMessages⟩ "What is X?" 1 true).sent.map
        (fun ms => ms.count (Msg.human "What is X?"))) = some 1 := by
  have h1 : get_chat_history ⟨"Old Name", 0, priorMessages ++ [⟨"What is X?", Sender.human⟩]⟩
      = List.replicate 100 ⟨"human", "earlier message"⟩ := by decide
  constructor
  · rw [h1]
    intro hmem
    have := List.eq_of_mem_replicate hmem
    simp at this
  · unfold send_message
    dsimp only
    rw [retrieve_answer_okLLM_history (fun _ => "ans") "What is X?" [oneDoc] _
      (by decide) (by rw [h1]; decide)]
    dsimp only
    rw [promptMessages, h1]
    rw [show takeLast 10 (List.replicate 100 (⟨"human", "earlier message"⟩ : HistMsg))
        = List.replicate 10 ⟨"human", "earlier message"⟩ by
      unfold takeLast
      rw [List.drop_replicate]
      simp]
    rw [List.map_replicate]
    simp [List.count_cons, List.count_append, List.count_replicate, histToMsg]

theorem firstOccurAux_congr {α : Type} (key : α → String) (s1 s2 : List String)
    (l : List α) (h : ∀ x, x ∈ s1 ↔ x ∈ s2) :
    firstOccurAux key s1 l = firstOccurAux key s2 l := by
  induction l generalizing s1 s2 with
  | nil => rfl
  | cons a t ih =>
      simp only [firstOccurAux]
      by_cases ha : key a ∈ s1
      · rw [if_pos ha, if_pos ((h _).1 ha)]
        exact ih s1 s2 h
      · rw [if_neg ha, if_neg (fun hx => ha ((h _).2 hx))]
        exact congrArg (a :: ·)
          (ih _ _ (fun x => by rw [List.mem_cons, List.mem_cons, h x]))

theorem firstOccurAux_cons {α : Type} (key : α → String) (seen : List String)
    (a : α) (l : List α) :
    firstOccurAux key seen (a :: l)
      = if key a ∈ seen then firstOccurAux key seen l
        else a :: firstOccurAux key (key a :: seen) l := rfl

theorem firstOccurAux_append {α : Type} (key : α → String) (seen : List String)
    (l m : List α) :
    firstOccurAux key seen (l ++ m)
      = firstOccurAux key seen l ++ firstOccurAux key (l.map key ++ seen) m := by
  induction l generalizing seen with
  | nil => simp [firstOccurAux]
  | cons a t ih =>
      rw [List.cons_append, firstOccurAux_cons, firstOccurAux_cons, List.map_cons]
      by_cases ha : key a ∈ seen
      · rw [if_pos ha, if_pos ha, ih seen]
        congr 1
        apply firstOccurAux_congr
        intro x
        constructor
        · intro hx
          exact List.mem_cons_of_mem _ hx
        · intro hx
          rcases List.mem_cons.1 hx with rfl | hx
          · exact List.mem_append_right _ ha
          · exact hx
      · rw [if_neg ha, if_neg ha, ih (key a :: seen), List.cons_append]
        congr 2
        apply firstOccurAux_congr
        intro x
        simp only [List.mem_append, List.mem_cons]
        tauto

theorem mem_map_key_firstOccurAux {α : Type} (key : α → String)
    (seen : List String) (l : List α) (s : String) :
    s ∈ (firstOccurAux key seen l).map key ↔ s ∈ l.map key ∧ s ∉ seen := by
  induction l generalizing seen with
  | nil => simp [firstOccurAux]
  | cons a t ih =>
      rw [firstOccurAux_cons]
      by_cases ha : key a ∈ seen
      · rw [if_pos ha, ih, List.map_cons]
        constructor
        · rintro ⟨h1, h2⟩
          exact ⟨List.mem_cons_of_mem _ h1, h2⟩
        · rintro ⟨h1, h2⟩
          rcases List.mem_cons.1 h1 with h1 | h1
          · exact absurd (h1.symm ▸ ha) h2
          · exact ⟨h1, h2⟩
      · rw [if_neg ha, List.map_cons, List.map_cons]
        constructor
        · intro hmem
          rcases List.mem_cons.1 hmem with h0 | hmem
          · exact ⟨h0 ▸ List.mem_cons_self _ _, h0 ▸ ha⟩
          · obtain ⟨h1, h2⟩ := (ih _).1 hmem
            exact ⟨List.mem_cons_of_mem _ h1,
              fun hs => h2 (List.mem_cons_of_mem _ hs)⟩
        · rintro ⟨h1, h2⟩
          by_cases hsa : s = key a
          · exact List.mem_cons.2 (Or.inl hsa)
          · apply List.mem_cons_of_mem
            apply (ih (key a :: seen)).2
            refine ⟨?_, ?_⟩
            · rcases List.mem_cons.1 h1 with h | h
              · exact absurd h hsa
              · exact h
            · intro hs
              rcases List.mem_cons.1 hs with h | h
              · exact hsa h
              · exact h2 h

theorem mem_keys_firstOccurBy {α : Type} (key : α → String) (l : List α)
    (s : String) : s ∈ (firstOccurBy key l).map key ↔ s ∈ l.map key := by
  rw [firstOccurBy, mem_map_key_firstOccurAux]
  simp

theorem firstOccurBy_concat {α : Type} (key : α → String) (l : List α) (a : α) :
    firstOccurBy key (l ++ [a])
      = if key a ∈ l.map key then firstOccurBy key l
        else firstOccurBy key l ++ [a] := by
  rw [firstOccurBy, firstOccurAux_append]
  by_cases ha : key a ∈ l.map key
  · rw [if_pos ha]
    have h2 : firstOccurAux key (l.map key ++ []) [a] = [] := by
      simp [firstOccurAux, ha]
    rw [h2, List.append_nil]
    rfl
  · rw [if_neg ha]
    have h2 : firstOccurAux key (l.map key ++ []) [a] = [a] := by
      simp [firstOccurAux, ha]
    rw [h2]
    rfl

theorem nodup_keys_firstOccurAux {α : Type} (key : α → String)
    (seen : List String) (l : List α) :
    ((firstOccurAux key seen l).map key).Nodup := by
  induction l generalizing seen with
  | nil => simp [firstOccurAux]
  | cons a t ih =>
      simp only [firstOccurAux]
      by_cases ha : key a ∈ seen
      · rw [if_pos ha]
        exact ih seen
      · rw [if_neg ha]
        simp only [List.map_cons, List.nodup_cons]
        refine ⟨?_, ih _⟩
        rw [mem_map_key_firstOccurAux]
        rintro ⟨-, h2⟩
        exact h2 (List.mem_cons_self _ _)

theorem lookup_eq_none_of_not_mem_keys {β : Type} (k : String)
    (al : List (String × β)) (h : k ∉ al.map Prod.fst) : al.lookup k = none := by
  induction al with
  | nil => rfl
  | cons p t ih =>
      obtain ⟨p1, p2⟩ := p
      simp only [List.map_cons, List.mem_cons, not_or] at h
      rw [List.lookup_cons]
      rw [show (k == p1) = false from beq_eq_false_iff_ne.mpr h.1]
      exact ih h.2

theorem lookup_isSome_of_mem_keys {β : Type} (k : String)
    (al : List (String × β)) (h : k ∈ al.map Prod.fst) :
    ∃ v, al.lookup k = some v := by
  induction al with
  | nil => simp at h
  | cons p t ih =>
      obtain ⟨p1, p2⟩ := p
      rw [List.lookup_cons]
      by_cases hk : k = p1
      · rw [show (k == p1) = true from beq_iff_eq.mpr hk]
        exact ⟨p2, rfl⟩
      · rw [show (k == p1) = false from beq_eq_false_iff_ne.mpr hk]
        apply ih
        simp only [List.map_cons, List.mem_cons] at h
        rcases h with h | h
        · exact absurd h hk
        · exact h

theorem keys_citationMapSpec (docs : List RetrievedDoc) :
    (citationMapSpec docs).map Prod.fst = (firstOccurBy docKey docs).map docKey := by
  rw [citationMapSpec, citationPairs, List.map_map]
  have h1 : (Prod.fst ∘ fun p : RetrievedDoc × Nat => (docKey p.1, p.2))
      = docKey ∘ Prod.fst := rfl
  rw [h1, ← List.map_map, List.map_fst_zip _ _ (by simp)]

theorem nums_citationMapSpec (docs : List RetrievedDoc) :
    (citationMapSpec docs).map Prod.snd
      = List.range' 1 (firstOccurBy docKey docs).length := by
  rw [citationMapSpec, citationPairs, List.map_map]
  have h1 : (Prod.snd ∘ fun p : RetrievedDoc × Nat => (docKey p.1, p.2))
      = Prod.snd := rfl
  rw [h1, List.map_snd_zip _ _ (by simp)]

theorem citationPairs_concat_unseen (pre : List RetrievedDoc) (d : RetrievedDoc)
    (h : docKey d ∉ pre.map docKey) :
    citationPairs (pre ++ [d])
      = citationPairs pre ++ [(d, (firstOccurBy docKey pre).length + 1)] := by
  have hF := firstOccurBy_concat docKey pre d
  rw [if_neg h] at hF
  rw [citationPairs, hF]
  have hlen : (firstOccurBy docKey pre ++ [d]).length
      = (firstOccurBy docKey pre).length + 1 := by simp
  rw [hlen, List.range'_1_concat,
    List.zip_append (by simp), citationPairs]
  have h2 : ([d].zip [1 + (firstOccurBy docKey pre).length])
      = [(d, (firstOccurBy docKey pre).length + 1)] := by
    rw [Nat.add_comm]
    rfl
  rw [h2]

theorem citationMapSpec_concat_unseen (pre : List RetrievedDoc) (d : RetrievedDoc)
    (h : docKey d ∉ pre.map docKey) :
    citationMapSpec (pre ++ [d])
      = citationMapSpec pre ++ [(docKey d, (firstOccurBy docKey pre).length + 1)] := by
  rw [citationMapSpec, citationPairs_concat_unseen pre d h, List.map_append,
    citationMapSpec]
  rfl

theorem citationRefsSpec_concat_unseen (pre : List RetrievedDoc) (d : RetrievedDoc)
    (h : docKey d ∉ pre.map docKey) :
    citationRefsSpec (pre ++ [d])
      = citationRefsSpec pre
          ++ [(toString ((firstOccurBy docKey pre).length + 1), ⟨docId d, docName d⟩)] := by
  rw [citationRefsSpec, citationPairs_concat_unseen pre d h, List.map_append,
    citationRefsSpec]
  rfl

theorem citationMapSpec_concat_seen (pre : List RetrievedDoc) (d : RetrievedDoc)
    (h : docKey d ∈ pre.map docKey) :
    citationMapSpec (pre ++ [d]) = citationMapSpec pre := by
  have hF := firstOccurBy_concat docKey pre d
  rw [if_pos h] at hF
  rw [citationMapSpec, citationPairs, hF, citationMapSpec, citationPairs]

theorem citationRefsSpec_concat_seen (pre : List RetrievedDoc) (d : RetrievedDoc)
    (h : docKey d ∈ pre.map docKey) :
    citationRefsSpec (pre ++ [d]) = citationRefsSpec pre := by
  have hF := firstOccurBy_concat docKey pre d
  rw [if_pos h] at hF
  rw [citationRefsSpec, citationPairs, hF, citationRefsSpec, citationPairs]

theorem citeNum_append_of_mem (pre : List RetrievedDoc) (d e : RetrievedDoc)
    (he : e ∈ pre) : citeNum (pre ++ [d]) e = citeNum pre e := by
  by_cases h : docKey d ∈ pre.map docKey
  · rw [citeNum, citeNum, citationMapSpec_concat_seen pre d h]
  · rw [citeNum, citeNum, citationMapSpec_concat_unseen pre d h, List.lookup_append]
    have hk : docKey e ∈ (citationMapSpec pre).map Prod.fst := by
      rw [keys_citationMapSpec, mem_keys_firstOccurBy]
      exact List.mem_map_of_mem _ he
    obtain ⟨v, hv⟩ := lookup_isSome_of_mem_keys _ _ hk
    rw [hv]
    rfl

theorem contextPartsSpec_concat (pre : List RetrievedDoc) (d : RetrievedDoc) :
    contextPartsSpec (pre ++ [d])
      = contextPartsSpec pre ++ [renderEntry (citeNum (pre ++ [d]) d) d] := by
  rw [contextPartsSpec, List.map_append, contextPartsSpec]
  congr 1
  apply List.map_congr_left
  intro e he
  rw [citeNum_append_of_mem pre d e he]

theorem processDoc_specState (pre : List RetrievedDoc) (d : RetrievedDoc) :
    processDoc (specState pre) d = specState (pre ++ [d]) := by
  by_cases h : docKey d ∈ pre.map docKey
  · have hk : docKey d ∈ (citationMapSpec pre).map Prod.fst := by
      rw [keys_citationMapSpec, mem_keys_firstOccurBy]
      exact h
    obtain ⟨v, hv⟩ := lookup_isSome_of_mem_keys _ _ hk
    have hcd : citeNum (pre ++ [d]) d = v := by
      rw [citeNum, citationMapSpec_concat_seen pre d h, hv]
      rfl
    have hF := firstOccurBy_concat docKey pre d
    rw [if_pos h] at hF
    unfold processDoc
    simp only [specState]
    rw [hv, citationMapSpec_concat_seen pre d h, citationRefsSpec_concat_seen pre d h,
      contextPartsSpec_concat, hcd, hF]
  · have hk : docKey d ∉ (citationMapSpec pre).map Prod.fst := by
      rw [keys_citationMapSpec, mem_keys_firstOccurBy]
      exact h
    have hv := lookup_eq_none_of_not_mem_keys _ _ hk
    have hcd : citeNum (pre ++ [d]) d = (firstOccurBy docKey pre).length + 1 := by
      rw [citeNum, citationMapSpec_concat_unseen pre d h, List.lookup_append, hv]
      simp [List.lookup_cons]
    have hF := firstOccurBy_concat docKey pre d
    rw [if_neg h] at hF
    unfold processDoc
    simp only [specState]
    rw [hv, citationMapSpec_concat_unseen pre d h,
      citationRefsSpec_concat_unseen pre d h, contextPartsSpec_concat, hcd, hF]
    simp

theorem foldl_processDoc_specState (docs pre : List RetrievedDoc) :
    docs.foldl processDoc (specState pre) = specState (pre ++ docs) := by
  induction docs generalizing pre with
  | nil => rw [List.foldl_nil, List.append_nil]
  | cons d rest ih =>
      rw [List.foldl_cons, processDoc_specState, ih]
      congr 1
      simp

theorem buildCitations_eq (docs : List RetrievedDoc) :
    buildCitations docs = specState docs := by
  have h0 : initCitState = specState [] := rfl
  rw [buildCitations, h0, foldl_processDoc_specState, List.nil_append]

theorem retrieve_answer_okLLM_refs (f : List Msg → String) (q : String)
    (docs : List RetrievedDoc) (ch : Option (List HistMsg)) (hd : docs ≠ []) :
    ∃ r, retrieve_answer (okLLM (ε := String) f) q docs ch = .ok r
      ∧ r.source_refs = citationRefsSpec docs := by
  have hrefs : (buildCitations docs).source_refs = citationRefsSpec docs := by
    rw [buildCitations_eq]
    rfl
  cases ch with
  | none => exact ⟨_, retrieve_answer_okLLM_none f q docs hd, hrefs⟩
  | some h =>
      cases h with
      | nil => exact ⟨_, retrieve_answer_okLLM_emptyHistory f q docs hd, hrefs⟩
      | cons a t =>
          exact ⟨_, retrieve_answer_okLLM_history f q docs (a :: t) hd
            (List.cons_ne_nil a t), hrefs⟩

/-- Claim C1: the citation loop of `retrieve_answer` assigns 1-based integers
in order of first appearance of each distinct document key (`document_id`,
falling back to the name when the id is empty or absent): `document_to_ref`
is exactly the first-appearance keys zipped with `1, 2, ...`; its keys are
distinct (one number per document); `source_refs` records the id and title of
each first-seen document under the stringified number; every rendered context
entry reuses the number assigned to its chunk's document; and the `source_refs`
returned by `retrieve_answer` is exactly this map. -/
theorem citation_numbering_stable (f : List Msg → String) (q : String)
    (docs : List RetrievedDoc) (ch : Option (List HistMsg)) (hd : docs ≠ []) :
    (buildCitations docs).document_to_ref = citationMapSpec docs
    ∧ (buildCitations docs).source_refs = citationRefsSpec docs
    ∧ (buildCitations docs).context_parts = contextPartsSpec docs
    ∧ (citationMapSpec docs).map Prod.snd
        = List.range' 1 (firstOccurBy docKey docs).length
    ∧ ((citationMapSpec docs).map Prod.fst).Nodup
    ∧ ∃ r, retrieve_answer (okLLM (ε := String) f) q docs ch = .ok r
        ∧ r.source_refs = citationRefsSpec docs := by
  refine ⟨?_, ?_, ?_, nums_citationMapSpec docs, ?_,
    retrieve_answer_okLLM_refs f q docs ch hd⟩
  · rw [buildCitations_eq]
    rfl
  · rw [buildCitations_eq]
    rfl
  · rw [buildCitations_eq]
    rfl
  · rw [keys_citationMapSpec]
    exact nodup_keys_firstOccurAux docKey [] docs

/-- Witness for `citation_numbering_stable`: chunks from documents
[A, B, A, C] in that order yield the map A→1, B→2, C→3, and the context block
reuses number 1 for both A chunks. -/
theorem citation_numbering_stable_witness :
    (buildCitations citeDocs).document_to_ref = [("idA", 1), ("idB", 2), ("idC", 3)]
    ∧ (buildCitations citeDocs).source_refs
        = [("1", ⟨"idA", "Doc A"⟩), ("2", ⟨"idB", "Doc B"⟩), ("3", ⟨"idC", "Doc C"⟩)]
    ∧ (buildCitations citeDocs).context_parts
        = ["[1] Doc A\nchunk a1", "[2] Doc B\nchunk b",
           "[1] Doc A\nchunk a2", "[3] Doc C\nchunk c"] := by
  have h := citation_numbering_stable (fun _ => "ans") "q" citeDocs none (by decide)
  exact ⟨h.1.trans (by decide), h.2.1.trans (by decide), h.2.2.1.trans (by decide)⟩

end RagApi
